import Mathlib

/-!
Verification of the random-mask / YOLO-annotation generator of the
A1111-script repository.

The core operation is `create_mask` (src/Main.py lines 23-48; the
function in src/Deneme_1.py lines 48-68 is the same logic with the same
constants 0.20 / 0.50, and src/Main_Resim.py lines 37-54 adds a final
4-pixel Gaussian blur of the mask).  The surrounding `main` loops write
one PNG image plus one text annotation per successfully generated image.

Modelling conventions:
* Python's `random.randint(a, b)` draws a uniform integer from the
  inclusive range [a, b] and raises `ValueError` when b < a.  We model
  the random source as an explicit stream `s : ℕ → ℕ` of draws; the
  value returned for the k-th call is `a + s k % (b + 1 - a)`, so every
  value of the stream realises one possible draw and every element of
  [a, b] is realised by some stream.
* Python floats: the normalised annotation fields are computed with IEEE
  doubles; we model the arithmetic exactly over ℚ.  The claims proved
  about these fields (membership in [0,1], exact algebraic round-trip)
  are stated by the spec "within rounding tolerance", and the rational
  values are the exact quantities the doubles approximate.
* Python exceptions are modelled with `Except`.
-/

/-- The Python exceptions relevant to the embedded code.
`invalidDimensionError` is the error class named by the specification's
error taxonomy; note that no function of the repository ever raises or
even defines it. -/
inductive PyErr where
  | valueError
  | zeroDivisionError
  | invalidDimensionError
  deriving DecidableEq, Repr

/-- A single-channel (mode "L") raster image: a width, a height, and the
intensity at each pixel coordinate.  Coordinates outside the canvas are
irrelevant; claims quantify over `x < width`, `y < height`. -/
structure Mask where
  width : ℕ
  height : ℕ
  pixel : ℕ → ℕ → ℕ
  deriving Inhabited

/-- `Image.new("L", (w, h), fill)`: a canvas of the given size with a
constant fill value (the scripts pass fill = 0). -/
def newImage (w h fill : ℕ) : Mask :=
  { width := w, height := h, pixel := fun _ _ => fill }

/-- `ImageDraw.Draw(m).rectangle([x0, y0, x1, y1], fill)`.  Per the
Pillow documentation and implementation, the bounding box is inclusive
of BOTH endpoints: every canvas pixel (x, y) with x0 ≤ x ≤ x1 and
y0 ≤ y ≤ y1 is set to `fill` (pixels outside the canvas do not exist;
claims only inspect in-canvas coordinates). -/
def drawRect (m : Mask) (x0 y0 x1 y1 fill : ℕ) : Mask :=
  { m with pixel := fun x y =>
      if x0 ≤ x ∧ x ≤ x1 ∧ y0 ≤ y ∧ y ≤ y1 then fill else m.pixel x y }

/-- The pixel box `(x0, y0, x1, y1)` returned by `create_mask`. -/
structure PixBox where
  x0 : ℕ
  y0 : ℕ
  x1 : ℕ
  y1 : ℕ
  deriving DecidableEq, Repr, Inhabited

/-- The YOLO record `(0, center_x, center_y, norm_w, norm_h)` returned
by `create_mask`, with the normalised fields as exact rationals. -/
structure Yolo where
  classId : ℕ
  cx : ℚ
  cy : ℚ
  nw : ℚ
  nh : ℚ
  deriving DecidableEq, Repr, Inhabited

/-- The triple `(mask, yolo_box, (x0, y0, x1, y1))` returned by
`create_mask`. -/
structure MaskResult where
  mask : Mask
  yolo : Yolo
  box : PixBox
  deriving Inhabited

/-- `random.randint(lo, hi)` applied to the draw `r` of the stream:
raises `ValueError` when `hi < lo`, otherwise returns a value of
[lo, hi] (every such value is realised by some `r`). -/
def randint (lo hi r : ℕ) : Except PyErr ℕ :=
  if hi < lo then .error .valueError else .ok (lo + r % (hi + 1 - lo))

/-- Python true division `a / b` with an integer-valued denominator:
raises `ZeroDivisionError` when the denominator is zero. -/
def pyDiv (a : ℚ) (b : ℕ) : Except PyErr ℚ :=
  if b = 0 then .error .zeroDivisionError else .ok (a / b)

/-- `int(d * 0.20)` from the source.  The Python expression multiplies
by the IEEE-754 double nearest to 0.20, which is 0.2 + ε with
ε ≈ 1.1e-17, and truncates.  For every `d` with `d / 5 < 2^53` the
rounded product has the same floor as the exact `d / 5`: when `d` is a
multiple of 5 the perturbation `d·ε` is below half an ulp of the exactly
representable integer `d / 5`, so the product rounds to that integer;
otherwise the fractional part of `d / 5` is at least 1/5, far above the
rounding error.  Hence the truncation is exactly natural division
by 5. -/
def minFracFloor (d : ℕ) : ℕ := d / 5

/-- `int(d * 0.50)` from the source.  0.50 is exactly representable and
`d * 0.5` is computed exactly for `d < 2^53`, so the truncation is
exactly natural division by 2. -/
def maxFracFloor (d : ℕ) : ℕ := d / 2

/-- `create_mask` of src/Main.py lines 23-48 (identically src/Deneme_1.py
lines 48-68): sample a box extent per dimension between int(d·0.20) and
int(d·0.50), sample the top-left corner so the box fits, rasterise the
rectangle at intensity 255 on a zero canvas, and build the normalised
YOLO record.  The stream `s` supplies the four `randint` draws in
program order. -/
def create_mask (width height : ℕ) (s : ℕ → ℕ) : Except PyErr MaskResult := do
  let box_w ← randint (minFracFloor width) (maxFracFloor width) (s 0)
  let box_h ← randint (minFracFloor height) (maxFracFloor height) (s 1)
  let x0 ← randint 0 (width - box_w) (s 2)
  let y0 ← randint 0 (height - box_h) (s 3)
  let x1 := x0 + box_w
  let y1 := y0 + box_h
  let mask := drawRect (newImage width height 0) x0 y0 x1 y1 255
  let center_x ← pyDiv (((x0 + x1 : ℕ) : ℚ) / 2) width
  let center_y ← pyDiv (((y0 + y1 : ℕ) : ℚ) / 2) height
  let norm_w ← pyDiv ((box_w : ℕ) : ℚ) width
  let norm_h ← pyDiv ((box_h : ℕ) : ℚ) height
  return { mask := mask
         , yolo := { classId := 0, cx := center_x, cy := center_y
                   , nw := norm_w, nh := norm_h }
         , box := { x0 := x0, y0 := y0, x1 := x1, y1 := y1 } }

/-- The box extent `randint(int(d*0.20), int(d*0.50))` actually sampled
for dimension `d` and draw `r` (the ranges are always non-empty). -/
def boxExtent (d r : ℕ) : ℕ :=
  minFracFloor d + r % (maxFracFloor d + 1 - minFracFloor d)

/-- The corner coordinate `randint(0, d - e)` actually sampled for
dimension `d`, extent `e` and draw `r`. -/
def cornerPos (d e r : ℕ) : ℕ := r % (d - e + 1)

/-- The rasterised mask for frame (w, h) and box corners. -/
def maskOf (w h x0 y0 x1 y1 : ℕ) : Mask :=
  drawRect (newImage w h 0) x0 y0 x1 y1 255

/-- The value `create_mask` returns on positive dimensions, in closed
form. -/
def resultOf (w h : ℕ) (s : ℕ → ℕ) : MaskResult :=
  let bw := boxExtent w (s 0)
  let bh := boxExtent h (s 1)
  let x0 := cornerPos w bw (s 2)
  let y0 := cornerPos h bh (s 3)
  { mask := maskOf w h x0 y0 (x0 + bw) (y0 + bh)
  , yolo := { classId := 0
            , cx := ((x0 + (x0 + bw) : ℕ) : ℚ) / 2 / w
            , cy := ((y0 + (y0 + bh) : ℕ) : ℚ) / 2 / h
            , nw := ((bw : ℕ) : ℚ) / w
            , nh := ((bh : ℕ) : ℚ) / h }
  , box := { x0 := x0, y0 := y0, x1 := x0 + bw, y1 := y0 + bh } }

theorem minFracFloor_le_maxFracFloor (d : ℕ) : minFracFloor d ≤ maxFracFloor d := by
  unfold minFracFloor maxFracFloor
  omega

theorem randint_extent_eq (d r : ℕ) :
    randint (minFracFloor d) (maxFracFloor d) r = .ok (boxExtent d r) := by
  unfold randint boxExtent
  rw [if_neg (Nat.not_lt.mpr (minFracFloor_le_maxFracFloor d))]

theorem randint_corner_eq (d e r : ℕ) :
    randint 0 (d - e) r = .ok (cornerPos d e r) := by
  unfold randint cornerPos
  rw [if_neg (Nat.not_lt_zero _)]
  simp

theorem pyDiv_of_pos (a : ℚ) (b : ℕ) (hb : 0 < b) : pyDiv a b = .ok (a / b) := by
  unfold pyDiv
  rw [if_neg (by omega)]

theorem ok_bind {α β : Type} (a : α) (f : α → Except PyErr β) :
    (Except.ok a : Except PyErr α) >>= f = f a := rfl

/-- On positive dimensions `create_mask` succeeds with the closed-form
result. -/
theorem create_mask_eq (w h : ℕ) (s : ℕ → ℕ) (hw : 1 ≤ w) (hh : 1 ≤ h) :
    create_mask w h s = .ok (resultOf w h s) := by
  unfold create_mask resultOf
  simp only [randint_extent_eq, randint_corner_eq, pyDiv_of_pos _ _ hw,
    pyDiv_of_pos _ _ hh, ok_bind]
  rfl

/-- Modelled from the Pillow documentation: `ImageFilter.GaussianBlur(r)`
is an external library routine; the code and spec rely only on it being
a smoothing filter that keeps the canvas dimensions.  We model a
fixed-radius neighbourhood average with edge clamping; the exact kernel
of Pillow's Gaussian approximation is irrelevant to every claim. -/
def blurPixel (radius : ℕ) (m : Mask) (x y : ℕ) : ℕ :=
  ((List.range (2 * radius + 1)).foldl (fun acc dx =>
      (List.range (2 * radius + 1)).foldl (fun acc2 dy =>
          acc2 + m.pixel (min (m.width - 1) (x + dx - radius))
                         (min (m.height - 1) (y + dy - radius))) acc) 0)
    / ((2 * radius + 1) * (2 * radius + 1))

/-- `mask.filter(ImageFilter.GaussianBlur(radius))`: a new raster of the
same dimensions with smoothed intensities. -/
def gaussianBlur (radius : ℕ) (m : Mask) : Mask :=
  { width := m.width, height := m.height, pixel := blurPixel radius m }

/-- `create_mask` of src/Main_Resim.py lines 37-54: identical sampling
and rasterisation (min_frac = 0.2, max_frac = 0.5), followed by a
4-pixel Gaussian blur of the mask before the YOLO record is built. -/
def create_mask_resim (width height : ℕ) (s : ℕ → ℕ) : Except PyErr MaskResult := do
  let box_w ← randint (minFracFloor width) (maxFracFloor width) (s 0)
  let box_h ← randint (minFracFloor height) (maxFracFloor height) (s 1)
  let x0 ← randint 0 (width - box_w) (s 2)
  let y0 ← randint 0 (height - box_h) (s 3)
  let x1 := x0 + box_w
  let y1 := y0 + box_h
  let mask := gaussianBlur 4 (drawRect (newImage width height 0) x0 y0 x1 y1 255)
  let center_x ← pyDiv (((x0 + x1 : ℕ) : ℚ) / 2) width
  let center_y ← pyDiv (((y0 + y1 : ℕ) : ℚ) / 2) height
  let norm_w ← pyDiv ((box_w : ℕ) : ℚ) width
  let norm_h ← pyDiv ((box_h : ℕ) : ℚ) height
  return { mask := mask
         , yolo := { classId := 0, cx := center_x, cy := center_y
                   , nw := norm_w, nh := norm_h }
         , box := { x0 := x0, y0 := y0, x1 := x1, y1 := y1 } }

/-- The value `create_mask_resim` returns on positive dimensions. -/
def resultOfResim (w h : ℕ) (s : ℕ → ℕ) : MaskResult :=
  { resultOf w h s with mask := gaussianBlur 4 (resultOf w h s).mask }

/-- On positive dimensions `create_mask_resim` succeeds with the
closed-form result. -/
theorem create_mask_resim_eq (w h : ℕ) (s : ℕ → ℕ) (hw : 1 ≤ w) (hh : 1 ≤ h) :
    create_mask_resim w h s = .ok (resultOfResim w h s) := by
  unfold create_mask_resim resultOfResim resultOf
  simp only [randint_extent_eq, randint_corner_eq, pyDiv_of_pos _ _ hw,
    pyDiv_of_pos _ _ hh, ok_bind]
  rfl

theorem boxExtent_bounds (d r : ℕ) :
    minFracFloor d ≤ boxExtent d r ∧ boxExtent d r ≤ maxFracFloor d := by
  have h0 : 0 < maxFracFloor d + 1 - minFracFloor d := by
    have := minFracFloor_le_maxFracFloor d
    omega
  have h1 := Nat.mod_lt r h0
  unfold boxExtent
  unfold minFracFloor maxFracFloor at h1 ⊢
  omega

theorem cornerPos_le (d e r : ℕ) : cornerPos d e r ≤ d - e := by
  have h1 := Nat.mod_lt r (show 0 < d - e + 1 by omega)
  unfold cornerPos
  omega

theorem resultOf_box (w h : ℕ) (s : ℕ → ℕ) :
    (resultOf w h s).box =
      { x0 := cornerPos w (boxExtent w (s 0)) (s 2)
      , y0 := cornerPos h (boxExtent h (s 1)) (s 3)
      , x1 := cornerPos w (boxExtent w (s 0)) (s 2) + boxExtent w (s 0)
      , y1 := cornerPos h (boxExtent h (s 1)) (s 3) + boxExtent h (s 1) } := rfl

theorem resultOf_yolo (w h : ℕ) (s : ℕ → ℕ) :
    (resultOf w h s).yolo =
      { classId := 0
      , cx := ((cornerPos w (boxExtent w (s 0)) (s 2) +
            (cornerPos w (boxExtent w (s 0)) (s 2) + boxExtent w (s 0)) : ℕ) : ℚ) / 2 / w
      , cy := ((cornerPos h (boxExtent h (s 1)) (s 3) +
            (cornerPos h (boxExtent h (s 1)) (s 3) + boxExtent h (s 1)) : ℕ) : ℚ) / 2 / h
      , nw := ((boxExtent w (s 0) : ℕ) : ℚ) / w
      , nh := ((boxExtent h (s 1) : ℕ) : ℚ) / h } := rfl

/-- Any stream of draws; draw value 0 picks the low end of every
`randint` range. -/
def zeros : ℕ → ℕ := fun _ => 0

/-- Extract the payload of a successful `create_mask` run. -/
def okResult (e : Except PyErr MaskResult) : MaskResult :=
  match e with
  | .ok r => r
  | .error _ => default

/-- Claim C1, amended: for every image of width ≥ 5 and height ≥ 5 —
exactly the dimensions for which int(width·0.20) ≥ 1 and
int(height·0.20) ≥ 1 — the pixel box returned by `create_mask`
satisfies 0 ≤ x0 < x1 ≤ width and 0 ≤ y0 < y1 ≤ height for every draw
of the random source.  (For positive dimensions below 5 the sampled box
extent can be 0, so only 0 ≤ x0 ≤ x1 ≤ width holds.) -/
theorem C1_box_in_frame (w h : ℕ) (s : ℕ → ℕ) (hw : 5 ≤ w) (hh : 5 ≤ h)
    (r : MaskResult) (hr : create_mask w h s = .ok r) :
    (0 ≤ r.box.x0 ∧ r.box.x0 < r.box.x1 ∧ r.box.x1 ≤ w) ∧
    (0 ≤ r.box.y0 ∧ r.box.y0 < r.box.y1 ∧ r.box.y1 ≤ h) := by
  rw [create_mask_eq w h s (by omega) (by omega)] at hr
  injection hr with hr
  subst hr
  rw [resultOf_box]
  have hbw := boxExtent_bounds w (s 0)
  have hbh := boxExtent_bounds h (s 1)
  have hcx := cornerPos_le w (boxExtent w (s 0)) (s 2)
  have hcy := cornerPos_le h (boxExtent h (s 1)) (s 3)
  unfold minFracFloor maxFracFloor at hbw hbh
  refine ⟨⟨Nat.zero_le _, ?_, ?_⟩, ⟨Nat.zero_le _, ?_, ?_⟩⟩ <;> simp only <;> omega

theorem C1_box_in_frame_witness :
    (0 ≤ (okResult (create_mask 10 10 zeros)).box.x0 ∧
      (okResult (create_mask 10 10 zeros)).box.x0 < (okResult (create_mask 10 10 zeros)).box.x1 ∧
      (okResult (create_mask 10 10 zeros)).box.x1 ≤ 10) ∧
    (0 ≤ (okResult (create_mask 10 10 zeros)).box.y0 ∧
      (okResult (create_mask 10 10 zeros)).box.y0 < (okResult (create_mask 10 10 zeros)).box.y1 ∧
      (okResult (create_mask 10 10 zeros)).box.y1 ≤ 10) :=
  C1_box_in_frame 10 10 zeros (by decide) (by decide)
    (okResult (create_mask 10 10 zeros)) rfl

/-- Claim C1, counterexample to the claim as stated: on a 1×1 image
(width ≥ 1, height ≥ 1) the sampled extents are forced to 0, the
returned box is (0, 0, 0, 0), and x0 < x1 fails. -/
theorem C1_degenerate_box_cex :
    create_mask 1 1 zeros = .ok (okResult (create_mask 1 1 zeros)) ∧
    (okResult (create_mask 1 1 zeros)).box = { x0 := 0, y0 := 0, x1 := 0, y1 := 0 } ∧
    ¬ (okResult (create_mask 1 1 zeros)).box.x0 < (okResult (create_mask 1 1 zeros)).box.x1 :=
  ⟨rfl, rfl, by decide⟩

/-- Claim C3: for every image and every draw, the sampled box extents
satisfy box_w ∈ [int(width·0.20), int(width·0.50)] and
box_h ∈ [int(height·0.20), int(height·0.50)] (the one-pixel-rounding
reading of box_w/width ∈ [0.20, 0.50]); the two extents are functions
of their own dimension and draw only (sampled independently), and the
box stays inside the frame.  At width = 640, height = 480 this gives
box_w ∈ [128, 320], box_h ∈ [96, 240], x0 + box_w ≤ 640,
y0 + box_h ≤ 480. -/
theorem C3_box_extent_bounds (w h : ℕ) (s : ℕ → ℕ) (hw : 1 ≤ w) (hh : 1 ≤ h)
    (r : MaskResult) (hr : create_mask w h s = .ok r) :
    (w / 5 ≤ r.box.x1 - r.box.x0 ∧ r.box.x1 - r.box.x0 ≤ w / 2) ∧
    (h / 5 ≤ r.box.y1 - r.box.y0 ∧ r.box.y1 - r.box.y0 ≤ h / 2) ∧
    r.box.x1 - r.box.x0 = boxExtent w (s 0) ∧
    r.box.y1 - r.box.y0 = boxExtent h (s 1) ∧
    r.box.x1 ≤ w ∧ r.box.y1 ≤ h := by
  rw [create_mask_eq w h s hw hh] at hr
  injection hr with hr
  subst hr
  rw [resultOf_box]
  have hbw := boxExtent_bounds w (s 0)
  have hbh := boxExtent_bounds h (s 1)
  have hcx := cornerPos_le w (boxExtent w (s 0)) (s 2)
  have hcy := cornerPos_le h (boxExtent h (s 1)) (s 3)
  unfold minFracFloor maxFracFloor at hbw hbh
  simp only
  omega

theorem C3_box_extent_bounds_witness :
    ((128 ≤ (okResult (create_mask 640 480 zeros)).box.x1 - (okResult (create_mask 640 480 zeros)).box.x0 ∧
        (okResult (create_mask 640 480 zeros)).box.x1 - (okResult (create_mask 640 480 zeros)).box.x0 ≤ 320) ∧
      (96 ≤ (okResult (create_mask 640 480 zeros)).box.y1 - (okResult (create_mask 640 480 zeros)).box.y0 ∧
        (okResult (create_mask 640 480 zeros)).box.y1 - (okResult (create_mask 640 480 zeros)).box.y0 ≤ 240) ∧
      (okResult (create_mask 640 480 zeros)).box.x1 - (okResult (create_mask 640 480 zeros)).box.x0 = boxExtent 640 (zeros 0) ∧
      (okResult (create_mask 640 480 zeros)).box.y1 - (okResult (create_mask 640 480 zeros)).box.y0 = boxExtent 480 (zeros 1) ∧
      (okResult (create_mask 640 480 zeros)).box.x1 ≤ 640 ∧
      (okResult (create_mask 640 480 zeros)).box.y1 ≤ 480) :=
  C3_box_extent_bounds 640 480 zeros (by decide) (by decide)
    (okResult (create_mask 640 480 zeros)) rfl

theorem nat_cast_div_nonneg (a b : ℕ) : (0 : ℚ) ≤ (a : ℚ) / (b : ℚ) := by
  positivity

theorem nat_cast_div_le_one {a b : ℕ} (hab : a ≤ b) (hb : 0 < b) :
    (a : ℚ) / (b : ℚ) ≤ 1 := by
  rw [div_le_one (by exact_mod_cast hb)]
  exact_mod_cast hab

/-- Claim C5: on every image with positive dimensions, all four
normalised fields of the YOLO record lie in [0, 1] and the class id is
0, for every draw. -/
theorem C5_yolo_normalised (w h : ℕ) (s : ℕ → ℕ) (hw : 1 ≤ w) (hh : 1 ≤ h)
    (r : MaskResult) (hr : create_mask w h s = .ok r) :
    r.yolo.classId = 0 ∧
    (0 ≤ r.yolo.cx ∧ r.yolo.cx ≤ 1) ∧ (0 ≤ r.yolo.cy ∧ r.yolo.cy ≤ 1) ∧
    (0 ≤ r.yolo.nw ∧ r.yolo.nw ≤ 1) ∧ (0 ≤ r.yolo.nh ∧ r.yolo.nh ≤ 1) := by
  rw [create_mask_eq w h s hw hh] at hr
  injection hr with hr
  subst hr
  rw [resultOf_yolo]
  have hbw := boxExtent_bounds w (s 0)
  have hbh := boxExtent_bounds h (s 1)
  have hcx := cornerPos_le w (boxExtent w (s 0)) (s 2)
  have hcy := cornerPos_le h (boxExtent h (s 1)) (s 3)
  unfold minFracFloor maxFracFloor at hbw hbh
  have hx2 : cornerPos w (boxExtent w (s 0)) (s 2) +
      (cornerPos w (boxExtent w (s 0)) (s 2) + boxExtent w (s 0)) ≤ 2 * w := by omega
  have hy2 : cornerPos h (boxExtent h (s 1)) (s 3) +
      (cornerPos h (boxExtent h (s 1)) (s 3) + boxExtent h (s 1)) ≤ 2 * h := by omega
  have hdivx : ((cornerPos w (boxExtent w (s 0)) (s 2) +
      (cornerPos w (boxExtent w (s 0)) (s 2) + boxExtent w (s 0)) : ℕ) : ℚ) / 2 / w =
      ((cornerPos w (boxExtent w (s 0)) (s 2) +
      (cornerPos w (boxExtent w (s 0)) (s 2) + boxExtent w (s 0)) : ℕ) : ℚ) / ((2 * w : ℕ) : ℚ) := by
    push_cast
    rw [div_div]
  have hdivy : ((cornerPos h (boxExtent h (s 1)) (s 3) +
      (cornerPos h (boxExtent h (s 1)) (s 3) + boxExtent h (s 1)) : ℕ) : ℚ) / 2 / h =
      ((cornerPos h (boxExtent h (s 1)) (s 3) +
      (cornerPos h (boxExtent h (s 1)) (s 3) + boxExtent h (s 1)) : ℕ) : ℚ) / ((2 * h : ℕ) : ℚ) := by
    push_cast
    rw [div_div]
  simp only
  refine ⟨trivial, ⟨?_, ?_⟩, ⟨?_, ?_⟩, ⟨?_, ?_⟩, ⟨?_, ?_⟩⟩
  · rw [hdivx]; exact nat_cast_div_nonneg _ _
  · rw [hdivx]; exact nat_cast_div_le_one hx2 (by omega)
  · rw [hdivy]; exact nat_cast_div_nonneg _ _
  · rw [hdivy]; exact nat_cast_div_le_one hy2 (by omega)
  · exact nat_cast_div_nonneg _ _
  · exact nat_cast_div_le_one (by omega) hw
  · exact nat_cast_div_nonneg _ _
  · exact nat_cast_div_le_one (by omega) hh

theorem C5_yolo_normalised_witness :
    (okResult (create_mask 7 3 zeros)).yolo.classId = 0 ∧
    (0 ≤ (okResult (create_mask 7 3 zeros)).yolo.cx ∧ (okResult (create_mask 7 3 zeros)).yolo.cx ≤ 1) ∧
    (0 ≤ (okResult (create_mask 7 3 zeros)).yolo.cy ∧ (okResult (create_mask 7 3 zeros)).yolo.cy ≤ 1) ∧
    (0 ≤ (okResult (create_mask 7 3 zeros)).yolo.nw ∧ (okResult (create_mask 7 3 zeros)).yolo.nw ≤ 1) ∧
    (0 ≤ (okResult (create_mask 7 3 zeros)).yolo.nh ∧ (okResult (create_mask 7 3 zeros)).yolo.nh ≤ 1) :=
  C5_yolo_normalised 7 3 zeros (by decide) (by decide)
    (okResult (create_mask 7 3 zeros)) rfl

/-- Claim C7: `create_mask` (and its blurred variant) is a pure
transform of the image dimensions and the random stream: two
invocations on the same dimensions from the same random-source state
return identical masks, YOLO records and pixel boxes.  There is no
other input: the embedding is a function of (width, height, stream)
alone. -/
theorem C7_deterministic (w h : ℕ) (s t : ℕ → ℕ) (hst : s = t) :
    create_mask w h s = create_mask w h t ∧
    create_mask_resim w h s = create_mask_resim w h t := by
  subst hst
  exact ⟨rfl, rfl⟩

theorem C7_deterministic_witness :
    create_mask 12 9 zeros = create_mask 12 9 zeros ∧
    create_mask_resim 12 9 zeros = create_mask_resim 12 9 zeros :=
  C7_deterministic 12 9 zeros zeros rfl

/-- Claim C8: the 4-pixel Gaussian blur of src/Main_Resim.py is a pure
post-process of the mask raster: on the same draws the blurred variant
returns exactly the same pixel box and YOLO record as the unblurred
`create_mask`, and the blurred mask keeps the source image's
dimensions. -/
theorem C8_blur_postprocess (w h : ℕ) (s : ℕ → ℕ) (hw : 1 ≤ w) (hh : 1 ≤ h) :
    ∃ rb r, create_mask_resim w h s = .ok rb ∧ create_mask w h s = .ok r ∧
      rb.box = r.box ∧ rb.yolo = r.yolo ∧
      rb.mask.width = w ∧ rb.mask.height = h := by
  refine ⟨resultOfResim w h s, resultOf w h s,
    create_mask_resim_eq w h s hw hh, create_mask_eq w h s hw hh, rfl, rfl, rfl, rfl⟩

theorem C8_blur_postprocess_witness :
    ∃ rb r, create_mask_resim 10 10 zeros = .ok rb ∧ create_mask 10 10 zeros = .ok r ∧
      rb.box = r.box ∧ rb.yolo = r.yolo ∧
      rb.mask.width = 10 ∧ rb.mask.height = 10 :=
  C8_blur_postprocess 10 10 zeros (by decide) (by decide)

/-- Claim C10: on every image with positive dimensions `create_mask`
(and the blurred variant) is total: both `randint` ranges are
non-empty (int(d·0.20) ≤ int(d·0.50) and d − box_d ≥ 0), no division
by zero occurs, and a (mask, yolo, box) triple is always returned —
even on images so small that a sampled extent is 0. -/
theorem C10_create_mask_total (w h : ℕ) (s : ℕ → ℕ) (hw : 1 ≤ w) (hh : 1 ≤ h) :
    (∃ r, create_mask w h s = .ok r) ∧ (∃ r, create_mask_resim w h s = .ok r) :=
  ⟨⟨resultOf w h s, create_mask_eq w h s hw hh⟩,
   ⟨resultOfResim w h s, create_mask_resim_eq w h s hw hh⟩⟩

theorem C10_create_mask_total_witness :
    (∃ r, create_mask 1 1 zeros = .ok r) ∧ (∃ r, create_mask_resim 1 1 zeros = .ok r) :=
  C10_create_mask_total 1 1 zeros (by decide) (by decide)

theorem maskOf_pixel (w h x0 y0 x1 y1 x y : ℕ) :
    (maskOf w h x0 y0 x1 y1).pixel x y =
      if x0 ≤ x ∧ x ≤ x1 ∧ y0 ≤ y ∧ y ≤ y1 then 255 else 0 := rfl

theorem resultOf_mask (w h : ℕ) (s : ℕ → ℕ) :
    (resultOf w h s).mask =
      maskOf w h (cornerPos w (boxExtent w (s 0)) (s 2)) (cornerPos h (boxExtent h (s 1)) (s 3))
        (cornerPos w (boxExtent w (s 0)) (s 2) + boxExtent w (s 0))
        (cornerPos h (boxExtent h (s 1)) (s 3) + boxExtent h (s 1)) := rfl

/-- Claim C2, amended: the mask is a zero-filled single-channel canvas
of the image's dimensions in which the rectangle is filled with 255
inclusive of BOTH edges (Pillow's `rectangle` includes the second
endpoint; columns/rows beyond the canvas are clipped): an in-canvas
pixel (x, y) has value 255 exactly when x0 ≤ x ≤ x1 and y0 ≤ y ≤ y1,
and 0 otherwise (no blur applied). -/
theorem C2_raster_inclusive (w h : ℕ) (s : ℕ → ℕ) (hw : 1 ≤ w) (hh : 1 ≤ h)
    (r : MaskResult) (hr : create_mask w h s = .ok r) (x y : ℕ)
    (hx : x < w) (hy : y < h) :
    r.mask.width = w ∧ r.mask.height = h ∧
    r.mask.pixel x y =
      if r.box.x0 ≤ x ∧ x ≤ r.box.x1 ∧ r.box.y0 ≤ y ∧ y ≤ r.box.y1 then 255 else 0 := by
  rw [create_mask_eq w h s hw hh] at hr
  injection hr with hr
  subst hr
  rw [resultOf_mask, resultOf_box]
  exact ⟨rfl, rfl, rfl⟩

theorem C2_raster_inclusive_witness :
    (okResult (create_mask 10 10 zeros)).mask.width = 10 ∧
    (okResult (create_mask 10 10 zeros)).mask.height = 10 ∧
    (okResult (create_mask 10 10 zeros)).mask.pixel 1 1 =
      if (okResult (create_mask 10 10 zeros)).box.x0 ≤ 1 ∧
          1 ≤ (okResult (create_mask 10 10 zeros)).box.x1 ∧
          (okResult (create_mask 10 10 zeros)).box.y0 ≤ 1 ∧
          1 ≤ (okResult (create_mask 10 10 zeros)).box.y1 then 255 else 0 :=
  C2_raster_inclusive 10 10 zeros (by decide) (by decide)
    (okResult (create_mask 10 10 zeros)) rfl 1 1 (by decide) (by decide)

/-- Claim C2, counterexample to the claim as stated: on a 10×10 image
with the all-zero draw the box is (0, 0, 2, 2); the pixel (2, 2) lies
outside the inclusive-exclusive rectangle [0,2)×[0,2) claimed by the
spec, yet its value is 255, not 0. -/
theorem C2_inclusive_edge_cex :
    create_mask 10 10 zeros = .ok (okResult (create_mask 10 10 zeros)) ∧
    (okResult (create_mask 10 10 zeros)).box = { x0 := 0, y0 := 0, x1 := 2, y1 := 2 } ∧
    (okResult (create_mask 10 10 zeros)).mask.pixel 2 2 = 255 ∧ (255 : ℕ) ≠ 0 :=
  ⟨rfl, rfl, rfl, by decide⟩

theorem error_bind {α β : Type} (e : PyErr) (f : α → Except PyErr β) :
    (Except.error e : Except PyErr α) >>= f = .error e := rfl

theorem pyDiv_zero (a : ℚ) : pyDiv a 0 = .error .zeroDivisionError := by
  unfold pyDiv
  rw [if_pos rfl]

/-- Claim C4, amended: `create_mask` performs no input validation and
never raises an `InvalidDimensionError` (no such error class exists in
the repository); when width = 0 or height = 0 it fails with a
`ZeroDivisionError`, raised only at the annotation-normalisation step —
after the mask raster has already been produced — and the fraction
bounds are the hardcoded constants 0.20/0.50, so malformed fraction
inputs cannot arise. -/
theorem C4_no_validation (w h : ℕ) (s : ℕ → ℕ) (hwh : w = 0 ∨ h = 0) :
    create_mask w h s = .error .zeroDivisionError ∧
    create_mask w h s ≠ .error .invalidDimensionError := by
  have h1 : create_mask w h s = .error .zeroDivisionError := by
    rcases hwh with hw | hh
    · subst hw
      unfold create_mask
      simp only [randint_extent_eq, randint_corner_eq, ok_bind, pyDiv_zero, error_bind]
    · subst hh
      rcases Nat.eq_zero_or_pos w with hw | hw
      · subst hw
        unfold create_mask
        simp only [randint_extent_eq, randint_corner_eq, ok_bind, pyDiv_zero, error_bind]
      · unfold create_mask
        simp only [randint_extent_eq, randint_corner_eq, ok_bind, pyDiv_of_pos _ _ hw,
          pyDiv_zero, error_bind]
  refine ⟨h1, ?_⟩
  intro hEq
  rw [h1] at hEq
  injection hEq with h2
  exact PyErr.noConfusion h2

theorem C4_no_validation_witness :
    create_mask 5 0 zeros = .error .zeroDivisionError ∧
    create_mask 5 0 zeros ≠ .error .invalidDimensionError :=
  C4_no_validation 5 0 zeros (Or.inr rfl)

/-- Claim C4, counterexample to the claim as stated: at width = 0 the
generator does not fail with an `InvalidDimensionError` — it fails with
a `ZeroDivisionError`, a different error. -/
theorem C4_zero_width_cex :
    create_mask 0 7 zeros = .error .zeroDivisionError ∧
    PyErr.zeroDivisionError ≠ PyErr.invalidDimensionError :=
  ⟨rfl, by decide⟩

/-- The five numeric fields of the YOLO record, in the order the
scripts write them: class, center_x, center_y, norm_w, norm_h. -/
def yoloFields (y : Yolo) : List ℚ :=
  [(y.classId : ℚ), y.cx, y.cy, y.nw, y.nh]

/-- Decoding the written fields: exactly five numbers, read back in
order.  (Python's `str` of a float parses back to the identical value,
so decoding the text recovers the numbers themselves.) -/
def parseFields : List ℚ → Option (ℚ × ℚ × ℚ × ℚ × ℚ)
  | [a, b, c, d, e] => some (a, b, c, d, e)
  | _ => none

/-- Claim C6: decoding the five written fields of the annotation
recovers the record, and multiplying the center and extent fields back
by (width, height) reconstructs the generated box exactly: cx·width is
the box center (x0+x1)/2, nw·width is the extent x1−x0, and likewise
for the y dimension. -/
theorem C6_annotation_roundtrip (w h : ℕ) (s : ℕ → ℕ) (hw : 1 ≤ w) (hh : 1 ≤ h)
    (r : MaskResult) (hr : create_mask w h s = .ok r) :
    parseFields (yoloFields r.yolo) =
      some ((r.yolo.classId : ℚ), r.yolo.cx, r.yolo.cy, r.yolo.nw, r.yolo.nh) ∧
    r.yolo.cx * w = ((r.box.x0 + r.box.x1 : ℕ) : ℚ) / 2 ∧
    r.yolo.cy * h = ((r.box.y0 + r.box.y1 : ℕ) : ℚ) / 2 ∧
    r.yolo.nw * w = ((r.box.x1 - r.box.x0 : ℕ) : ℚ) ∧
    r.yolo.nh * h = ((r.box.y1 - r.box.y0 : ℕ) : ℚ) := by
  have hw0 : ((w : ℚ)) ≠ 0 := Nat.cast_ne_zero.mpr (by omega)
  have hh0 : ((h : ℚ)) ≠ 0 := Nat.cast_ne_zero.mpr (by omega)
  rw [create_mask_eq w h s hw hh] at hr
  injection hr with hr
  subst hr
  rw [resultOf_yolo, resultOf_box]
  refine ⟨rfl, ?_, ?_, ?_, ?_⟩
  · exact div_mul_cancel₀ _ hw0
  · exact div_mul_cancel₀ _ hh0
  · rw [Nat.add_sub_cancel_left]
    exact div_mul_cancel₀ _ hw0
  · rw [Nat.add_sub_cancel_left]
    exact div_mul_cancel₀ _ hh0

theorem C6_annotation_roundtrip_witness :
    parseFields (yoloFields (okResult (create_mask 10 10 zeros)).yolo) =
      some (((okResult (create_mask 10 10 zeros)).yolo.classId : ℚ),
        (okResult (create_mask 10 10 zeros)).yolo.cx,
        (okResult (create_mask 10 10 zeros)).yolo.cy,
        (okResult (create_mask 10 10 zeros)).yolo.nw,
        (okResult (create_mask 10 10 zeros)).yolo.nh) ∧
    (okResult (create_mask 10 10 zeros)).yolo.cx * 10 =
      (((okResult (create_mask 10 10 zeros)).box.x0 + (okResult (create_mask 10 10 zeros)).box.x1 : ℕ) : ℚ) / 2 ∧
    (okResult (create_mask 10 10 zeros)).yolo.cy * 10 =
      (((okResult (create_mask 10 10 zeros)).box.y0 + (okResult (create_mask 10 10 zeros)).box.y1 : ℕ) : ℚ) / 2 ∧
    (okResult (create_mask 10 10 zeros)).yolo.nw * 10 =
      (((okResult (create_mask 10 10 zeros)).box.x1 - (okResult (create_mask 10 10 zeros)).box.x0 : ℕ) : ℚ) ∧
    (okResult (create_mask 10 10 zeros)).yolo.nh * 10 =
      (((okResult (create_mask 10 10 zeros)).box.y1 - (okResult (create_mask 10 10 zeros)).box.y0 : ℕ) : ℚ) :=
  C6_annotation_roundtrip 10 10 zeros (by decide) (by decide)
    (okResult (create_mask 10 10 zeros)) rfl

/-- The kind of output file a loop iteration writes. -/
inductive FileKind where
  | png
  | txt
  deriving DecidableEq, Repr

/-- One file write performed by `main`: the 1-based iteration index the
name is built from, the kind, the file name, and the text written. -/
structure WriteEvent where
  index : ℕ
  kind : FileKind
  name : String
  content : String
  deriving DecidableEq, Repr

/-- `" ".join(str(val) for val in yolo_box)` (src/Main.py line 139,
src/Deneme_1.py line 170): the five numeric fields joined by single
spaces.  `str` of each numeric value is modelled by the string of the
exact rational. -/
def yoloLine (y : Yolo) : String :=
  String.intercalate " " ((yoloFields y).map toString)

/-- One iteration of the loop of src/Main.py lines 118-142: run
`create_mask` on the opened image, call the API (modelled as an oracle
returning the generated image's encoded content, or `none` on failure);
on success save `out_<i+1>.png` and then write the annotation line to
`out_<i+1>.txt`; on API failure nothing is written. -/
def iterWrites (i : ℕ) (dims : ℕ × ℕ) (s : ℕ → ℕ) (api : Option String) :
    Except PyErr (List WriteEvent) := do
  let r ← create_mask dims.1 dims.2 s
  match api with
  | none => return []
  | some img =>
      return [ { index := i + 1, kind := .png
               , name := "out_" ++ toString (i + 1) ++ ".png", content := img }
             , { index := i + 1, kind := .txt
               , name := "out_" ++ toString (i + 1) ++ ".txt"
               , content := yoloLine r.yolo } ]

/-- The writes of one iteration when `create_mask` succeeds. -/
def iterWritesOk (i : ℕ) (dims : ℕ × ℕ) (s : ℕ → ℕ) (api : Option String) :
    List WriteEvent :=
  match api with
  | none => []
  | some img =>
      [ { index := i + 1, kind := .png
        , name := "out_" ++ toString (i + 1) ++ ".png", content := img }
      , { index := i + 1, kind := .txt
        , name := "out_" ++ toString (i + 1) ++ ".txt"
        , content := yoloLine (resultOf dims.1 dims.2 s).yolo } ]

/-- The `for i, image_name in enumerate(...)` loop of `main`
(src/Main.py lines 118-142), indexed from `i` with `k` iterations left:
`dims j` is the size of the image opened in iteration `j`, `streams j`
its random draws, `api j` the API outcome.  An uncaught exception from
`create_mask` aborts the whole run. -/
def mainGo (dims : ℕ → ℕ × ℕ) (streams : ℕ → ℕ → ℕ) (api : ℕ → Option String) :
    ℕ → ℕ → Except PyErr (List WriteEvent)
  | _, 0 => .ok []
  | i, k + 1 => do
      let ws ← iterWrites i (dims i) (streams i) (api i)
      let rest ← mainGo dims streams api (i + 1) k
      return ws ++ rest

/-- All file writes of a `main` run producing `count` images. -/
def mainWrites (count : ℕ) (dims : ℕ → ℕ × ℕ) (streams : ℕ → ℕ → ℕ)
    (api : ℕ → Option String) : Except PyErr (List WriteEvent) :=
  mainGo dims streams api 0 count

/-- The writes of a run whose `create_mask` calls all succeed. -/
def mainGoOk (dims : ℕ → ℕ × ℕ) (streams : ℕ → ℕ → ℕ) (api : ℕ → Option String) :
    ℕ → ℕ → List WriteEvent
  | _, 0 => []
  | i, k + 1 =>
      iterWritesOk i (dims i) (streams i) (api i) ++ mainGoOk dims streams api (i + 1) k

theorem iterWrites_eq (i : ℕ) (dims : ℕ × ℕ) (s : ℕ → ℕ) (api : Option String)
    (h1 : 1 ≤ dims.1) (h2 : 1 ≤ dims.2) :
    iterWrites i dims s api = .ok (iterWritesOk i dims s api) := by
  unfold iterWrites iterWritesOk
  rw [create_mask_eq dims.1 dims.2 s h1 h2, ok_bind]
  cases api <;> rfl

theorem mainGo_eq (dims : ℕ → ℕ × ℕ) (streams : ℕ → ℕ → ℕ) (api : ℕ → Option String)
    (hd : ∀ j, 1 ≤ (dims j).1 ∧ 1 ≤ (dims j).2) :
    ∀ k i, mainGo dims streams api i k = .ok (mainGoOk dims streams api i k) := by
  intro k
  induction k with
  | zero => intro i; rfl
  | succ k ih =>
      intro i
      unfold mainGo mainGoOk
      rw [iterWrites_eq i (dims i) (streams i) (api i) (hd i).1 (hd i).2, ok_bind,
        ih (i + 1), ok_bind]
      rfl

theorem iterWritesOk_spec (i : ℕ) (dims : ℕ × ℕ) (s : ℕ → ℕ) (api : Option String) :
    ∀ e ∈ iterWritesOk i dims s api,
      e.index = i + 1 ∧
      (e.kind = FileKind.txt → e.name = "out_" ++ toString (i + 1) ++ ".txt" ∧
        e.content = yoloLine (resultOf dims.1 dims.2 s).yolo) ∧
      (e.kind = FileKind.png → e.name = "out_" ++ toString (i + 1) ++ ".png") := by
  intro e he
  unfold iterWritesOk at he
  cases api with
  | none => cases he
  | some img =>
      simp only [List.mem_cons, List.not_mem_nil, or_false] at he
      rcases he with rfl | rfl
      · refine ⟨rfl, ?_, ?_⟩
        · intro hk; exact FileKind.noConfusion hk
        · intro _; rfl
      · refine ⟨rfl, ?_, ?_⟩
        · intro _; exact ⟨rfl, rfl⟩
        · intro hk; exact FileKind.noConfusion hk

theorem mainGoOk_index_range (dims : ℕ → ℕ × ℕ) (streams : ℕ → ℕ → ℕ)
    (api : ℕ → Option String) :
    ∀ k i, ∀ e ∈ mainGoOk dims streams api i k, i + 1 ≤ e.index ∧ e.index ≤ i + k := by
  intro k
  induction k with
  | zero => intro i e he; cases he
  | succ k ih =>
      intro i e he
      unfold mainGoOk at he
      rcases List.mem_append.mp he with he | he
      · have h1 := (iterWritesOk_spec i (dims i) (streams i) (api i) e he).1
        omega
      · have h1 := ih (i + 1) e he
        omega

theorem mainGoOk_names (dims : ℕ → ℕ × ℕ) (streams : ℕ → ℕ → ℕ)
    (api : ℕ → Option String) :
    ∀ k i, ∀ e ∈ mainGoOk dims streams api i k,
      (e.kind = FileKind.txt → e.name = "out_" ++ toString e.index ++ ".txt" ∧
        e.content = yoloLine (resultOf (dims (e.index - 1)).1 (dims (e.index - 1)).2
          (streams (e.index - 1))).yolo) ∧
      (e.kind = FileKind.png → e.name = "out_" ++ toString e.index ++ ".png") := by
  intro k
  induction k with
  | zero => intro i e he; cases he
  | succ k ih =>
      intro i e he
      unfold mainGoOk at he
      rcases List.mem_append.mp he with he | he
      · obtain ⟨hidx, htxt, hpng⟩ := iterWritesOk_spec i (dims i) (streams i) (api i) e he
        have hi : e.index - 1 = i := by omega
        rw [hi, hidx]
        exact ⟨htxt, hpng⟩
      · exact ih (i + 1) e he

theorem mainGoOk_pairing (dims : ℕ → ℕ × ℕ) (streams : ℕ → ℕ → ℕ)
    (api : ℕ → Option String) :
    ∀ k i, ∀ e ∈ mainGoOk dims streams api i k,
      (e.kind = FileKind.txt → ∃ e2 ∈ mainGoOk dims streams api i k,
        e2.kind = FileKind.png ∧ e2.index = e.index) ∧
      (e.kind = FileKind.png → ∃ e2 ∈ mainGoOk dims streams api i k,
        e2.kind = FileKind.txt ∧ e2.index = e.index) := by
  intro k
  induction k with
  | zero => intro i e he; cases he
  | succ k ih =>
      intro i e he
      unfold mainGoOk at he ⊢
      rcases List.mem_append.mp he with he | he
      · cases hapi : api i with
        | none => rw [hapi] at he; cases he
        | some img =>
            rw [hapi] at he
            simp only [iterWritesOk, List.mem_cons, List.not_mem_nil, or_false] at he
            rcases he with rfl | rfl
            · refine ⟨?_, ?_⟩
              · intro hk; exact FileKind.noConfusion hk
              · intro _
                refine ⟨{ index := i + 1, kind := FileKind.txt
                        , name := "out_" ++ toString (i + 1) ++ ".txt"
                        , content := yoloLine (resultOf (dims i).1 (dims i).2 (streams i)).yolo },
                    List.mem_append_left _ ?_, rfl, rfl⟩
                simp [iterWritesOk]
            · refine ⟨?_, ?_⟩
              · intro _
                refine ⟨{ index := i + 1, kind := FileKind.png
                        , name := "out_" ++ toString (i + 1) ++ ".png", content := img },
                    List.mem_append_left _ ?_, rfl, rfl⟩
                simp [iterWritesOk]
              · intro hk; exact FileKind.noConfusion hk
      · refine ⟨?_, ?_⟩
        · intro hk
          obtain ⟨e2, he2, h1, h2⟩ := (ih (i + 1) e he).1 hk
          exact ⟨e2, List.mem_append_right _ he2, h1, h2⟩
        · intro hk
          obtain ⟨e2, he2, h1, h2⟩ := (ih (i + 1) e he).2 hk
          exact ⟨e2, List.mem_append_right _ he2, h1, h2⟩

theorem mainGoOk_txt_once (dims : ℕ → ℕ × ℕ) (streams : ℕ → ℕ → ℕ)
    (api : ℕ → Option String) :
    ∀ k i n, ((mainGoOk dims streams api i k).filter
      (fun e => e.kind == FileKind.txt && e.index == n)).length ≤ 1 := by
  intro k
  induction k with
  | zero => intro i n; simp [mainGoOk]
  | succ k ih =>
      intro i n
      unfold mainGoOk
      rw [List.filter_append, List.length_append]
      by_cases hn : n = i + 1
      · subst hn
        have htail : (mainGoOk dims streams api (i + 1) k).filter
            (fun e => e.kind == FileKind.txt && e.index == i + 1) = [] := by
          rw [List.filter_eq_nil_iff]
          intro e he
          have hrange := mainGoOk_index_range dims streams api k (i + 1) e he
          simp only [Bool.and_eq_true, beq_iff_eq, not_and]
          intro _
          omega
        rw [htail]
        have hhead : ((iterWritesOk i (dims i) (streams i) (api i)).filter
            (fun e => e.kind == FileKind.txt && e.index == i + 1)).length ≤ 1 := by
          unfold iterWritesOk
          cases api i <;> simp
        simpa using hhead
      · have hhead : (iterWritesOk i (dims i) (streams i) (api i)).filter
            (fun e => e.kind == FileKind.txt && e.index == n) = [] := by
          rw [List.filter_eq_nil_iff]
          intro e he
          have hidx := (iterWritesOk_spec i (dims i) (streams i) (api i) e he).1
          simp only [Bool.and_eq_true, beq_iff_eq, not_and]
          intro _
          omega
        rw [hhead]
        simpa using ih (i + 1) n

/-- Claim C9: in a `main` run, each annotation record is written
exactly once (at most one txt write per index, and the record — five
space-separated numeric fields — is written in full in that single
event, never touched afterwards), one annotation per generated image;
the file names pair 1:1 with the output image of the same index:
`out_<n>.png` alongside `out_<n>.txt`. -/
theorem C9_serialization_pairing (count : ℕ) (dims : ℕ → ℕ × ℕ)
    (streams : ℕ → ℕ → ℕ) (api : ℕ → Option String)
    (hd : ∀ j, 1 ≤ (dims j).1 ∧ 1 ≤ (dims j).2) :
    ∃ evs, mainWrites count dims streams api = .ok evs ∧
      (∀ y : Yolo, (yoloFields y).length = 5) ∧
      (∀ e ∈ evs, e.kind = FileKind.txt →
        e.name = "out_" ++ toString e.index ++ ".txt" ∧
        e.content = yoloLine (resultOf (dims (e.index - 1)).1 (dims (e.index - 1)).2
          (streams (e.index - 1))).yolo) ∧
      (∀ e ∈ evs, e.kind = FileKind.png → e.name = "out_" ++ toString e.index ++ ".png") ∧
      (∀ n, (evs.filter (fun e => e.kind == FileKind.txt && e.index == n)).length ≤ 1) ∧
      (∀ e ∈ evs, e.kind = FileKind.txt →
        ∃ e2 ∈ evs, e2.kind = FileKind.png ∧ e2.index = e.index) ∧
      (∀ e ∈ evs, e.kind = FileKind.png →
        ∃ e2 ∈ evs, e2.kind = FileKind.txt ∧ e2.index = e.index) := by
  refine ⟨mainGoOk dims streams api 0 count, mainGo_eq dims streams api hd count 0,
    fun _ => rfl, ?_, ?_, ?_, ?_, ?_⟩
  · intro e he hk
    exact (mainGoOk_names dims streams api count 0 e he).1 hk
  · intro e he hk
    exact (mainGoOk_names dims streams api count 0 e he).2 hk
  · intro n
    exact mainGoOk_txt_once dims streams api count 0 n
  · intro e he hk
    exact (mainGoOk_pairing dims streams api count 0 e he).1 hk
  · intro e he hk
    exact (mainGoOk_pairing dims streams api count 0 e he).2 hk

theorem C9_serialization_pairing_witness :
    ∃ evs, mainWrites 3 (fun _ => (10, 10)) (fun _ _ => 0) (fun _ => some "img") = .ok evs ∧
      (∀ y : Yolo, (yoloFields y).length = 5) ∧
      (∀ e ∈ evs, e.kind = FileKind.txt →
        e.name = "out_" ++ toString e.index ++ ".txt" ∧
        e.content = yoloLine (resultOf ((fun _ => ((10 : ℕ), (10 : ℕ))) (e.index - 1)).1
          ((fun _ => ((10 : ℕ), (10 : ℕ))) (e.index - 1)).2
          ((fun _ _ => (0 : ℕ)) (e.index - 1))).yolo) ∧
      (∀ e ∈ evs, e.kind = FileKind.png → e.name = "out_" ++ toString e.index ++ ".png") ∧
      (∀ n, (evs.filter (fun e => e.kind == FileKind.txt && e.index == n)).length ≤ 1) ∧
      (∀ e ∈ evs, e.kind = FileKind.txt →
        ∃ e2 ∈ evs, e2.kind = FileKind.png ∧ e2.index = e.index) ∧
      (∀ e ∈ evs, e.kind = FileKind.png →
        ∃ e2 ∈ evs, e2.kind = FileKind.txt ∧ e2.index = e.index) :=
  C9_serialization_pairing 3 (fun _ => (10, 10)) (fun _ _ => 0) (fun _ => some "img")
    (fun _ => ⟨by norm_num, by norm_num⟩)
